import Mathlib

set_option maxHeartbeats 1000000

/-!
Shallow embedding of the Solana Anchor program in
src/contract/programs/contract/src/lib.rs (module freelance_platform).

Public keys are modelled as natural numbers, lamport balances as natural
numbers.  Every u64 arithmetic step the program itself performs is
modelled as checked arithmetic: a subtraction below zero or a sum
reaching 2 ^ 64 aborts the whole transaction with an untyped arithmetic
failure, distinct from the declared error codes (overflow checks are
enabled in the release profile of an Anchor workspace, build
configuration that lives outside src/, and the host rolls every failed
transaction back).  Credits to wallet balances are kept as plain Nat
addition: lamports are conserved by the runtime, so a credit can never
carry a balance past the total supply, which itself fits in u64.

Host behaviour that the Accounts structs declare (account lookup,
signer and has_one checks, init allocation, close) runs before or
around the instruction body; it is modelled as explicit checks whose
failures are the untyped TxError.constraint rejection.
-/

/-- Error codes declared by the program (the error_code enum in lib.rs). -/
inductive ErrorCode
  | JobIdTooLong
  | InvalidMilestoneAmount
  | InvalidMilestoneIndex
  | MilestoneAlreadyApproved
  | MilestoneNotApproved
  | MilestoneAlreadyClaimed
  | CannotCancelAfterApproval
  | InsufficientEscrowBalance
  | UnauthorizedPlatformAccess
deriving DecidableEq, Repr

/-- Transaction-level outcome of a failed instruction: a typed rejection
carrying one of the declared error codes, an untyped arithmetic abort
(checked u64 underflow or overflow), or a host account-constraint
rejection raised outside the instruction body (missing account, failed
has_one or signer or init check, insufficient funds of the payer). -/
inductive TxError
  | code : ErrorCode → TxError
  | arith : TxError
  | constraint : TxError
deriving DecidableEq, Repr

/-- The escrow account data (struct Escrow in lib.rs). -/
structure Escrow where
  recruiter : Nat
  freelancer : Nat
  job_id : String
  milestone_amounts : Fin 3 → Nat
  milestones_approved : Fin 3 → Bool
  milestones_claimed : Fin 3 → Bool
  bump : Nat

/-- Global ledger state: the escrow account (record data plus the
lamports held by the account, allocation deposit included; none when
the record does not exist or has been closed) and the lamport balances
of the wallet accounts, indexed by public key. -/
structure Chain where
  escrow : Option (Escrow × Nat)
  balances : Nat → Nat

/-- The compiled-in platform authority public key (the constant
PLATFORM_AUTHORITY in lib.rs); its identity is an arbitrary fixed key
here, only equality with it matters. -/
def PLATFORM_AUTHORITY : Nat := 7777777

/-- One past the largest u64 value. -/
def u64Limit : Nat := 2 ^ 64

/-- Instruction create_job_escrow.  The host account context
(CreateJobEscrow) performs init: it requires that no record exists at
the derived address, allocates it and moves the allocation deposit from
the recruiter; the rent schedule is host configuration outside src/, so
the deposit arrives as the explicit rent argument, and because every
failure aborts the whole transaction, the deposit payment and the
transfer of the total amount in the body fold into one funds check.
The bump byte is host-derived; it is kept at the fixed value 255. -/
def create_job_escrow (st : Chain) (recruiter : Nat) (job_id : String)
    (freelancer : Nat) (milestone_amounts : Fin 3 → Nat) (rent : Nat) :
    Except TxError Chain :=
  match st.escrow with
  | some _ => .error .constraint
  | none =>
    if job_id.length ≤ 50 then
      if ∀ i : Fin 3, 0 < milestone_amounts i then
        if milestone_amounts 0 + milestone_amounts 1 + milestone_amounts 2 < u64Limit then
          let total_amount := milestone_amounts 0 + milestone_amounts 1 + milestone_amounts 2
          if rent + total_amount ≤ st.balances recruiter then
            .ok { escrow := some
                    ({ recruiter := recruiter
                       freelancer := freelancer
                       job_id := job_id
                       milestone_amounts := milestone_amounts
                       milestones_approved := fun _ => false
                       milestones_claimed := fun _ => false
                       bump := 255 }, rent + total_amount)
                  balances := Function.update st.balances recruiter
                    (st.balances recruiter - (rent + total_amount)) }
          else .error .constraint
        else .error .arith
      else .error (.code .InvalidMilestoneAmount)
    else .error (.code .JobIdTooLong)

/-- Instruction approve_milestone.  The host context (ApproveMilestone)
checks has_one = recruiter against the signing caller before the body
runs. -/
def approve_milestone (st : Chain) (caller : Nat) (milestone_index : Nat) :
    Except TxError Chain :=
  match st.escrow with
  | none => .error .constraint
  | some (escrow, lamports) =>
    if caller = escrow.recruiter then
      if h : milestone_index < 3 then
        if escrow.milestones_approved ⟨milestone_index, h⟩ then
          .error (.code .MilestoneAlreadyApproved)
        else
          .ok { st with
                escrow := some ({ escrow with
                  milestones_approved := Function.update escrow.milestones_approved ⟨milestone_index, h⟩ true }, lamports) }
      else .error (.code .InvalidMilestoneIndex)
    else .error .constraint

/-- Instruction claim_milestone.  The host context (ClaimMilestone)
checks has_one = freelancer against the signing caller before the body
runs.  The body subtracts the milestone amount from the account
lamports without first comparing it with the held balance, so an
insufficient balance surfaces as a checked-arithmetic abort, not as a
declared error code. -/
def claim_milestone (st : Chain) (caller : Nat) (milestone_index : Nat) :
    Except TxError Chain :=
  match st.escrow with
  | none => .error .constraint
  | some (escrow, lamports) =>
    if caller = escrow.freelancer then
      if h : milestone_index < 3 then
        if escrow.milestones_approved ⟨milestone_index, h⟩ then
          if escrow.milestones_claimed ⟨milestone_index, h⟩ then
            .error (.code .MilestoneAlreadyClaimed)
          else
            let amount := escrow.milestone_amounts ⟨milestone_index, h⟩
            if amount ≤ lamports then
              .ok { escrow := some
                      ({ escrow with milestones_claimed :=
                           Function.update escrow.milestones_claimed ⟨milestone_index, h⟩ true },
                       lamports - amount)
                    balances := Function.update st.balances escrow.freelancer
                      (st.balances escrow.freelancer + amount) }
            else .error .arith
        else .error (.code .MilestoneNotApproved)
      else .error (.code .InvalidMilestoneIndex)
    else .error .constraint

/-- The remaining balance computed by cancel_job: the sum of the
milestone amounts whose claimed flag is still false. -/
def unclaimedSum (escrow : Escrow) : Nat :=
  ∑ i : Fin 3, if escrow.milestones_claimed i then 0 else escrow.milestone_amounts i

/-- Instruction cancel_job.  The host context (CancelJob) checks
has_one = recruiter and, after the body, close = recruiter: the account
is deallocated and its remaining lamports (the allocation deposit) join
the recruiter balance.  Like claim_milestone, the body subtracts the
computed remaining balance from the account lamports without comparing
it with the held balance first. -/
def cancel_job (st : Chain) (caller : Nat) : Except TxError Chain :=
  match st.escrow with
  | none => .error .constraint
  | some (escrow, lamports) =>
    if caller = escrow.recruiter then
      if ∃ i : Fin 3, escrow.milestones_approved i = true then
        .error (.code .CannotCancelAfterApproval)
      else
        let remaining_balance := unclaimedSum escrow
        if remaining_balance < u64Limit then
          if remaining_balance ≤ lamports then
            let bal1 := Function.update st.balances escrow.recruiter
              (st.balances escrow.recruiter + remaining_balance)
            .ok { escrow := none
                  balances := Function.update bal1 escrow.recruiter
                    (bal1 escrow.recruiter + (lamports - remaining_balance)) }
          else .error .arith
        else .error .arith
    else .error .constraint

/-- Instruction platform_withdraw.  The host context (PlatformWithdraw)
checks the address constraint on the signing platform_authority account
before the body runs, surfacing UnauthorizedPlatformAccess on
mismatch. -/
def platform_withdraw (st : Chain) (caller : Nat) (amount : Nat) :
    Except TxError Chain :=
  match st.escrow with
  | none => .error .constraint
  | some (escrow, lamports) =>
    if caller = PLATFORM_AUTHORITY then
      if amount ≤ lamports then
        .ok { escrow := some (escrow, lamports - amount)
              balances := Function.update st.balances PLATFORM_AUTHORITY
                (st.balances PLATFORM_AUTHORITY + amount) }
      else .error (.code .InsufficientEscrowBalance)
    else .error (.code .UnauthorizedPlatformAccess)

/-- Instruction platform_emergency_close.  The body zeroes the account
lamports and credits them to the platform authority; close =
platform_authority then deallocates the account (nothing is left in it
by that point). -/
def platform_emergency_close (st : Chain) (caller : Nat) :
    Except TxError Chain :=
  match st.escrow with
  | none => .error .constraint
  | some (_, lamports) =>
    if caller = PLATFORM_AUTHORITY then
      .ok { escrow := none
            balances := Function.update st.balances PLATFORM_AUTHORITY
              (st.balances PLATFORM_AUTHORITY + lamports) }
    else .error (.code .UnauthorizedPlatformAccess)

/-- One invocation of the program, with its signing caller and
arguments. -/
inductive Op
  | create (recruiter : Nat) (job_id : String) (freelancer : Nat)
      (milestone_amounts : Fin 3 → Nat) (rent : Nat)
  | approve (caller : Nat) (milestone_index : Nat)
  | claim (caller : Nat) (milestone_index : Nat)
  | cancel (caller : Nat)
  | withdraw (caller : Nat) (amount : Nat)
  | close (caller : Nat)

/-- Whether an operation is a create_job_escrow invocation. -/
def Op.isCreate : Op → Bool
  | .create _ _ _ _ _ => true
  | _ => false

/-- Dispatch one operation against the current ledger state. -/
def applyOp (st : Chain) : Op → Except TxError Chain
  | .create r j f m rent => create_job_escrow st r j f m rent
  | .approve c i => approve_milestone st c i
  | .claim c i => claim_milestone st c i
  | .cancel c => cancel_job st c
  | .withdraw c a => platform_withdraw st c a
  | .close c => platform_emergency_close st c

/-- Committed state after one invocation: the host applies a successful
transaction and rolls a failed one back completely. -/
def step (st : Chain) (op : Op) : Chain :=
  match applyOp st op with
  | .ok st1 => st1
  | .error _ => st

/-- Committed state after a sequence of invocations. -/
def run (st : Chain) (ops : List Op) : Chain := ops.foldl step st

/-- Invariant I1: on a live record, a claimed milestone is an approved
milestone. -/
def inv1 (st : Chain) : Prop :=
  ∀ e l (i : Fin 3), st.escrow = some (e, l) →
    e.milestones_claimed i = true → e.milestones_approved i = true

example : (create_job_escrow { escrow := none, balances := fun _ => 1000 }
    1 "job-1" 2 ![10, 20, 30] 5).isOk = true := by rfl

/-- A sample escrow record used by concrete witnesses. -/
def exEscrow : Escrow where
  recruiter := 1
  freelancer := 2
  job_id := "job-1"
  milestone_amounts := ![10, 20, 30]
  milestones_approved := ![true, false, false]
  milestones_claimed := ![false, false, false]
  bump := 255

/-- A sample ledger state with a live record, used by concrete
witnesses. -/
def exSt : Chain where
  escrow := some (exEscrow, 65)
  balances := fun _ => 1000

/-- The empty ledger state used as the start of concrete traces. -/
def genesis : Chain where
  escrow := none
  balances := fun _ => 1000

example : (claim_milestone exSt 2 0).isOk = true := by rfl

theorem step_of_ok {st st1 : Chain} {op : Op}
    (h : applyOp st op = .ok st1) : step st op = st1 := by
  simp [step, h]

theorem step_of_error {st : Chain} {op : Op} {err : TxError}
    (h : applyOp st op = .error err) : step st op = st := by
  simp [step, h]

theorem unclaimedSum_eq (e : Escrow) :
    unclaimedSum e =
      (if e.milestones_claimed 0 then 0 else e.milestone_amounts 0) +
      (if e.milestones_claimed 1 then 0 else e.milestone_amounts 1) +
      (if e.milestones_claimed 2 then 0 else e.milestone_amounts 2) := by
  simp [unclaimedSum, Fin.sum_univ_three]

/-- C9: approve_milestone(index), invoked by the stored recruiter on a
live record, sets milestones_approved[index] to true and changes no
other field and no balance when index is in range and the flag is still
false; it fails with InvalidMilestoneIndex when index is at least 3 and
with MilestoneAlreadyApproved when the flag is already true, mutating
nothing on error. -/
theorem approve_milestone_spec (st : Chain) (e : Escrow) (l : Nat) (c : Nat)
    (hlive : st.escrow = some (e, l)) (hc : c = e.recruiter) :
    (∀ i : Fin 3,
      (e.milestones_approved i = true →
        applyOp st (Op.approve c i.val) = .error (.code .MilestoneAlreadyApproved) ∧
        step st (Op.approve c i.val) = st) ∧
      (e.milestones_approved i = false →
        applyOp st (Op.approve c i.val) = .ok { st with
          escrow := some ({ e with
            milestones_approved := Function.update e.milestones_approved i true }, l) })) ∧
    (∀ j : Nat, 3 ≤ j →
      applyOp st (Op.approve c j) = .error (.code .InvalidMilestoneIndex) ∧
      step st (Op.approve c j) = st) := by
  subst hc
  refine ⟨fun i => ⟨fun ha => ?_, fun ha => ?_⟩, fun j hj => ?_⟩
  · have h : applyOp st (Op.approve e.recruiter i.val) =
        .error (.code .MilestoneAlreadyApproved) := by
      simp only [applyOp, approve_milestone, hlive]
      rw [if_pos trivial, dif_pos i.isLt]
      simp only [Fin.eta, ha]
      rfl
    exact ⟨h, step_of_error h⟩
  · simp only [applyOp, approve_milestone, hlive]
    rw [if_pos trivial, dif_pos i.isLt]
    simp only [Fin.eta, ha]
    rfl
  · have h : applyOp st (Op.approve e.recruiter j) =
        .error (.code .InvalidMilestoneIndex) := by
      simp only [applyOp, approve_milestone, hlive]
      rw [if_pos trivial, dif_neg (by omega)]
    exact ⟨h, step_of_error h⟩

theorem approve_milestone_spec_witness :
    applyOp exSt (Op.approve 1 1) = .ok { exSt with
      escrow := some ({ exEscrow with
        milestones_approved := Function.update exEscrow.milestones_approved 1 true }, 65) } ∧
    applyOp exSt (Op.approve 1 5) = .error (.code .InvalidMilestoneIndex) := by
  have h := approve_milestone_spec exSt exEscrow 65 1 rfl rfl
  exact ⟨(h.1 1).2 rfl, (h.2 5 (by decide)).1⟩

/-- C6: platform_withdraw(amount) succeeds exactly when the caller is
the compiled-in platform authority and amount is at most the lamports
held by the record; on success it moves exactly amount from the record
to the platform authority and leaves every record field unchanged; it
fails with InsufficientEscrowBalance when amount exceeds the held
lamports and with UnauthorizedPlatformAccess when the caller
mismatches, with no state change on error. -/
theorem platform_withdraw_spec (st : Chain) (e : Escrow) (l : Nat)
    (hlive : st.escrow = some (e, l)) (c amount : Nat) :
    (c ≠ PLATFORM_AUTHORITY →
      applyOp st (Op.withdraw c amount) = .error (.code .UnauthorizedPlatformAccess) ∧
      step st (Op.withdraw c amount) = st) ∧
    (c = PLATFORM_AUTHORITY → l < amount →
      applyOp st (Op.withdraw c amount) = .error (.code .InsufficientEscrowBalance) ∧
      step st (Op.withdraw c amount) = st) ∧
    (c = PLATFORM_AUTHORITY → amount ≤ l →
      applyOp st (Op.withdraw c amount) = .ok
        { escrow := some (e, l - amount)
          balances := Function.update st.balances PLATFORM_AUTHORITY
            (st.balances PLATFORM_AUTHORITY + amount) }) := by
  refine ⟨fun hne => ?_, fun hc hlt => ?_, fun hc hle => ?_⟩
  · have h : applyOp st (Op.withdraw c amount) =
        .error (.code .UnauthorizedPlatformAccess) := by
      simp only [applyOp, platform_withdraw, hlive]
      rw [if_neg hne]
    exact ⟨h, step_of_error h⟩
  · subst hc
    have h : applyOp st (Op.withdraw PLATFORM_AUTHORITY amount) =
        .error (.code .InsufficientEscrowBalance) := by
      simp only [applyOp, platform_withdraw, hlive]
      rw [if_pos trivial, if_neg (by omega)]
    exact ⟨h, step_of_error h⟩
  · subst hc
    simp only [applyOp, platform_withdraw, hlive]
    rw [if_pos trivial, if_pos hle]

theorem platform_withdraw_spec_witness :
    applyOp exSt (Op.withdraw PLATFORM_AUTHORITY 5) = .ok
      { escrow := some (exEscrow, 60)
        balances := Function.update exSt.balances PLATFORM_AUTHORITY
          (exSt.balances PLATFORM_AUTHORITY + 5) } ∧
    applyOp exSt (Op.withdraw 3 5) = .error (.code .UnauthorizedPlatformAccess) ∧
    applyOp exSt (Op.withdraw PLATFORM_AUTHORITY 100) = .error (.code .InsufficientEscrowBalance) := by
  have h := platform_withdraw_spec exSt exEscrow 65 rfl
  exact ⟨(h PLATFORM_AUTHORITY 5).2.2 rfl (by decide),
    ((h 3 5).1 (by decide)).1,
    ((h PLATFORM_AUTHORITY 100).2.1 rfl (by decide)).1⟩

theorem claim_cases (st : Chain) (e : Escrow) (l : Nat) (c : Nat)
    (hlive : st.escrow = some (e, l)) (hc : c = e.freelancer) :
    (∀ i : Fin 3,
      (e.milestones_approved i = false →
        applyOp st (Op.claim c i.val) = .error (.code .MilestoneNotApproved)) ∧
      (e.milestones_approved i = true → e.milestones_claimed i = true →
        applyOp st (Op.claim c i.val) = .error (.code .MilestoneAlreadyClaimed)) ∧
      (e.milestones_approved i = true → e.milestones_claimed i = false →
        (l < e.milestone_amounts i →
          applyOp st (Op.claim c i.val) = .error .arith) ∧
        (e.milestone_amounts i ≤ l →
          applyOp st (Op.claim c i.val) = .ok
            { escrow := some
                ({ e with milestones_claimed := Function.update e.milestones_claimed i true },
                  l - e.milestone_amounts i)
              balances := Function.update st.balances e.freelancer
                (st.balances e.freelancer + e.milestone_amounts i) }))) ∧
    (∀ j : Nat, 3 ≤ j →
      applyOp st (Op.claim c j) = .error (.code .InvalidMilestoneIndex)) := by
  subst hc
  refine ⟨fun i => ⟨fun ha => ?_, fun ha hcl => ?_, fun ha hcl => ⟨fun hlt => ?_, fun hle => ?_⟩⟩,
    fun j hj => ?_⟩
  · simp only [applyOp, claim_milestone, hlive]
    rw [if_pos trivial, dif_pos i.isLt]
    simp only [Fin.eta, ha]
    rfl
  · simp only [applyOp, claim_milestone, hlive]
    rw [if_pos trivial, dif_pos i.isLt]
    simp only [Fin.eta, ha, hcl]
    rfl
  · simp only [applyOp, claim_milestone, hlive]
    rw [if_pos trivial, dif_pos i.isLt]
    simp only [Fin.eta, ha, hcl]
    rw [if_pos trivial, if_neg (by simp), if_neg (by omega)]
  · simp only [applyOp, claim_milestone, hlive]
    rw [if_pos trivial, dif_pos i.isLt]
    simp only [Fin.eta, ha, hcl]
    rw [if_pos trivial, if_neg (by simp), if_pos hle]
  · simp only [applyOp, claim_milestone, hlive]
    rw [if_pos trivial, dif_neg (by omega)]

theorem cancel_cases (st : Chain) (e : Escrow) (l : Nat) (c : Nat)
    (hlive : st.escrow = some (e, l)) (hc : c = e.recruiter) :
    ((∃ i : Fin 3, e.milestones_approved i = true) →
      applyOp st (Op.cancel c) = .error (.code .CannotCancelAfterApproval)) ∧
    ((∀ i : Fin 3, e.milestones_approved i = false) → unclaimedSum e < u64Limit →
      (l < unclaimedSum e → applyOp st (Op.cancel c) = .error .arith) ∧
      (unclaimedSum e ≤ l →
        ∃ st1, applyOp st (Op.cancel c) = .ok st1 ∧ st1.escrow = none ∧
          st1.balances e.recruiter = st.balances e.recruiter + l ∧
          (∀ k, k ≠ e.recruiter → st1.balances k = st.balances k))) := by
  subst hc
  refine ⟨fun hex => ?_, fun hnoapp hfit => ⟨fun hlt => ?_, fun hle => ?_⟩⟩
  · simp only [applyOp, cancel_job, hlive]
    rw [if_pos trivial, if_pos hex]
  · simp only [applyOp, cancel_job, hlive]
    rw [if_pos trivial, if_neg (by simp [hnoapp]), if_pos hfit, if_neg (by omega)]
  · simp only [applyOp, cancel_job, hlive]
    rw [if_pos trivial, if_neg (by simp [hnoapp]), if_pos hfit, if_pos hle]
    refine ⟨_, rfl, rfl, ?_, ?_⟩
    · dsimp only
      simp only [Function.update_same]
      omega
    · intro k hk
      dsimp only
      simp only [Function.update_noteq hk]

/-- C4 (amended): claim_milestone(index), invoked by the stored
freelancer on a live record, succeeds exactly when index < 3,
milestones_approved[index] is true, milestones_claimed[index] is false
and the lamports held by the record cover milestone_amounts[index]; on
success it moves exactly milestone_amounts[index] from the record to
the freelancer and sets milestones_claimed[index] = true; it fails with
InvalidMilestoneIndex when index is at least 3, with
MilestoneNotApproved whenever the approved flag is false regardless of
the prior call history, with MilestoneAlreadyClaimed when the claimed
flag is already set, and with the untyped arithmetic abort when the
held lamports are below the milestone amount, mutating nothing in every
failure case. -/
theorem claim_milestone_spec (st : Chain) (e : Escrow) (l : Nat) (c : Nat)
    (hlive : st.escrow = some (e, l)) (hc : c = e.freelancer) :
    (∀ i : Fin 3,
      (e.milestones_approved i = false →
        applyOp st (Op.claim c i.val) = .error (.code .MilestoneNotApproved) ∧
        step st (Op.claim c i.val) = st) ∧
      (e.milestones_approved i = true → e.milestones_claimed i = true →
        applyOp st (Op.claim c i.val) = .error (.code .MilestoneAlreadyClaimed) ∧
        step st (Op.claim c i.val) = st) ∧
      (e.milestones_approved i = true → e.milestones_claimed i = false →
        (l < e.milestone_amounts i →
          applyOp st (Op.claim c i.val) = .error .arith ∧
          step st (Op.claim c i.val) = st) ∧
        (e.milestone_amounts i ≤ l →
          applyOp st (Op.claim c i.val) = .ok
            { escrow := some
                ({ e with milestones_claimed := Function.update e.milestones_claimed i true },
                  l - e.milestone_amounts i)
              balances := Function.update st.balances e.freelancer
                (st.balances e.freelancer + e.milestone_amounts i) }))) ∧
    (∀ j : Nat, 3 ≤ j →
      applyOp st (Op.claim c j) = .error (.code .InvalidMilestoneIndex) ∧
      step st (Op.claim c j) = st) := by
  have h := claim_cases st e l c hlive hc
  refine ⟨fun i => ⟨fun ha => ?_, fun ha hcl => ?_,
    fun ha hcl => ⟨fun hlt => ?_, fun hle => ?_⟩⟩, fun j hj => ?_⟩
  · exact ⟨(h.1 i).1 ha, step_of_error ((h.1 i).1 ha)⟩
  · exact ⟨(h.1 i).2.1 ha hcl, step_of_error ((h.1 i).2.1 ha hcl)⟩
  · exact ⟨((h.1 i).2.2 ha hcl).1 hlt, step_of_error (((h.1 i).2.2 ha hcl).1 hlt)⟩
  · exact ((h.1 i).2.2 ha hcl).2 hle
  · exact ⟨h.2 j hj, step_of_error (h.2 j hj)⟩

theorem claim_milestone_spec_witness :
    applyOp exSt (Op.claim 2 0) = .ok
      { escrow := some
          ({ exEscrow with milestones_claimed := Function.update exEscrow.milestones_claimed 0 true }, 55)
        balances := Function.update exSt.balances exEscrow.freelancer
          (exSt.balances exEscrow.freelancer + 10) } ∧
    applyOp exSt (Op.claim 2 1) = .error (.code .MilestoneNotApproved) ∧
    applyOp exSt (Op.claim 2 7) = .error (.code .InvalidMilestoneIndex) := by
  have h := claim_milestone_spec exSt exEscrow 65 2 rfl rfl
  exact ⟨((h.1 0).2.2 rfl rfl).2 (by decide), ((h.1 1).1 rfl).1, (h.2 7 (by decide)).1⟩

/-- Operations that create a record with milestone amounts 10, 10, 10
and deposit 5, approve milestone 0 and then drain all 35 lamports of
the record through platform_withdraw. -/
def drainOps : List Op :=
  [Op.create 1 "job-1" 2 ![10, 10, 10] 5, Op.approve 1 0,
   Op.withdraw PLATFORM_AUTHORITY 35]

/-- The drained reachable state with milestone 0 approved. -/
def drainedSt : Chain := run genesis drainOps

/-- C4 counterexample: in the reachable state drainedSt the conditions
of the claim hold -- index 0 is below 3, approved and unclaimed, and
the caller is the stored freelancer -- yet claim_milestone(0) does not
succeed: the record holds 0 lamports and the balance subtraction aborts
with the untyped arithmetic failure. -/
theorem claim_milestone_drained_cex :
    (drainedSt.escrow.map fun p => (p.1.freelancer, p.1.milestones_approved 0,
      p.1.milestones_claimed 0, p.2)) = some (2, true, false, 0) ∧
    applyOp drainedSt (Op.claim 2 0) = .error .arith := by
  exact ⟨rfl, rfl⟩

/-- C5 (amended): cancel_job, invoked by the stored recruiter on a live
record none of whose milestones is approved, refunds the recruiter
provided the lamports held by the record cover the sum of the unclaimed
milestone amounts: it transfers that sum and then the rest of the
account lamports (the allocation deposit) to the recruiter and
deallocates the record, and under invariant I1 the refunded sum equals
the full original milestone total; when a prior platform_withdraw has
pushed the held lamports below that sum, the call aborts with the
untyped arithmetic failure instead of transferring. -/
theorem cancel_job_spec (st : Chain) (e : Escrow) (l : Nat) (c : Nat)
    (hlive : st.escrow = some (e, l)) (hc : c = e.recruiter)
    (hnoapp : ∀ i : Fin 3, e.milestones_approved i = false)
    (hfit : unclaimedSum e < u64Limit) :
    (unclaimedSum e ≤ l →
      ∃ st1, applyOp st (Op.cancel c) = .ok st1 ∧ st1.escrow = none ∧
        st1.balances e.recruiter = st.balances e.recruiter + l ∧
        (∀ k, k ≠ e.recruiter → st1.balances k = st.balances k)) ∧
    (l < unclaimedSum e → applyOp st (Op.cancel c) = .error .arith) ∧
    (inv1 st → unclaimedSum e =
      e.milestone_amounts 0 + e.milestone_amounts 1 + e.milestone_amounts 2) := by
  have h := cancel_cases st e l c hlive hc
  refine ⟨fun hle => (h.2 hnoapp hfit).2 hle, fun hlt => (h.2 hnoapp hfit).1 hlt, fun hinv => ?_⟩
  have hcl : ∀ i : Fin 3, e.milestones_claimed i = false := by
    intro i
    by_contra hne
    have : e.milestones_claimed i = true := by
      cases hcase : e.milestones_claimed i
      · exact absurd hcase hne
      · rfl
    exact absurd (hinv e l i hlive this) (by simp [hnoapp i])
  rw [unclaimedSum_eq, hcl 0, hcl 1, hcl 2]
  simp

/-- The state reached by creating a record with amounts 10, 20, 30 and
deposit 5 (no approvals, no claims). -/
def freshSt : Chain := step genesis (Op.create 1 "job-1" 2 ![10, 20, 30] 5)

/-- The record data held by freshSt. -/
def freshEscrow : Escrow where
  recruiter := 1
  freelancer := 2
  job_id := "job-1"
  milestone_amounts := ![10, 20, 30]
  milestones_approved := fun _ => false
  milestones_claimed := fun _ => false
  bump := 255

theorem cancel_job_spec_witness :
    unclaimedSum freshEscrow ≤ 65 ∧ (applyOp freshSt (Op.cancel 1)).isOk = true := by
  have h := cancel_job_spec freshSt freshEscrow 65 1 rfl rfl (by decide) (by decide)
  refine ⟨by decide, ?_⟩
  obtain ⟨st1, h1, -, -, -⟩ := h.1 (by decide)
  rw [h1]
  rfl

/-- Operations that create a record with milestone amounts 10, 10, 10
and deposit 5 and then drain all 35 lamports of the record through
platform_withdraw, approving nothing. -/
def drainOpsNoApprove : List Op :=
  [Op.create 1 "job-1" 2 ![10, 10, 10] 5, Op.withdraw PLATFORM_AUTHORITY 35]

/-- The drained reachable state with no approvals. -/
def drainedStNoApprove : Chain := run genesis drainOpsNoApprove

/-- C5 counterexample: in the reachable state drainedStNoApprove the
conditions of the claim hold -- the caller is the stored recruiter and
no milestone has ever been approved -- yet cancel_job transfers
nothing: the record holds 0 lamports, the sum of the unclaimed amounts
is 30, and the balance subtraction aborts with the untyped arithmetic
failure. -/
theorem cancel_job_drained_cex :
    (drainedStNoApprove.escrow.map fun p => (p.1.recruiter,
      p.1.milestones_approved 0, p.1.milestones_approved 1, p.1.milestones_approved 2,
      p.2)) = some (1, false, false, false, 0) ∧
    applyOp drainedStNoApprove (Op.cancel 1) = .error .arith := by
  exact ⟨rfl, rfl⟩

/-- C7: a create_job_escrow attempt at a fresh address fails with
JobIdTooLong whenever the job id length exceeds 50, and, when the job
id is within bounds, with InvalidMilestoneAmount whenever one of the
three milestone amounts is 0; in both cases no record is created and no
value moves. -/
theorem create_job_escrow_validation (st : Chain) (hnone : st.escrow = none)
    (r : Nat) (j : String) (f : Nat) (m : Fin 3 → Nat) (rent : Nat) :
    (50 < j.length →
      applyOp st (Op.create r j f m rent) = .error (.code .JobIdTooLong) ∧
      step st (Op.create r j f m rent) = st) ∧
    (j.length ≤ 50 → (∃ i : Fin 3, m i = 0) →
      applyOp st (Op.create r j f m rent) = .error (.code .InvalidMilestoneAmount) ∧
      step st (Op.create r j f m rent) = st) := by
  refine ⟨fun hlong => ?_, fun hok hzero => ?_⟩
  · have h : applyOp st (Op.create r j f m rent) = .error (.code .JobIdTooLong) := by
      simp only [applyOp, create_job_escrow, hnone]
      rw [if_neg (by omega)]
    exact ⟨h, step_of_error h⟩
  · have h : applyOp st (Op.create r j f m rent) =
        .error (.code .InvalidMilestoneAmount) := by
      simp only [applyOp, create_job_escrow, hnone]
      obtain ⟨i, hi⟩ := hzero
      rw [if_pos hok, if_neg (not_forall.mpr ⟨i, by omega⟩)]
    exact ⟨h, step_of_error h⟩

theorem create_job_escrow_validation_witness :
    applyOp genesis (Op.create 1
      "aaaaaaaaaaaaaaaaaaaaaaaaaaaaaaaaaaaaaaaaaaaaaaaaaaa" 2 ![10, 20, 30] 5) =
      .error (.code .JobIdTooLong) ∧
    applyOp genesis (Op.create 1 "job-1" 2 ![0, 5, 5] 5) =
      .error (.code .InvalidMilestoneAmount) := by
  have h1 := create_job_escrow_validation genesis rfl 1
    "aaaaaaaaaaaaaaaaaaaaaaaaaaaaaaaaaaaaaaaaaaaaaaaaaaa" 2 ![10, 20, 30] 5
  have h2 := create_job_escrow_validation genesis rfl 1 "job-1" 2 ![0, 5, 5] 5
  exact ⟨(h1.1 (by decide)).1, (h2.2 (by decide) ⟨0, by decide⟩).1⟩

/-- C8: a successful create_job_escrow moves exactly the mathematical
sum of the three milestone amounts from the caller into the record
(plus the host allocation deposit, modelled separately as rent), so the
newly created record holds the deposit plus the full escrowed total,
its fields are initialised from the arguments with both flag arrays
all false, no other balance moves, and the u64 sum did not wrap. -/
theorem create_job_escrow_total (st st1 : Chain) (r : Nat) (j : String)
    (f : Nat) (m : Fin 3 → Nat) (rent : Nat)
    (h : applyOp st (Op.create r j f m rent) = .ok st1) :
    st1.escrow = some
      ({ recruiter := r, freelancer := f, job_id := j, milestone_amounts := m,
         milestones_approved := fun _ => false, milestones_claimed := fun _ => false,
         bump := 255 }, rent + (m 0 + m 1 + m 2)) ∧
    st.balances r = st1.balances r + rent + (m 0 + m 1 + m 2) ∧
    (∀ k, k ≠ r → st1.balances k = st.balances k) ∧
    m 0 + m 1 + m 2 < u64Limit := by
  rcases hst : st.escrow with - | p
  all_goals simp only [applyOp, create_job_escrow, hst] at h
  case some => cases h
  split_ifs at h with h1 h2 h3 h4
  · cases h
    refine ⟨rfl, ?_, ?_, h3⟩
    · dsimp only
      rw [Function.update_same]
      omega
    · intro k hk
      dsimp only
      rw [Function.update_noteq hk]

theorem create_job_escrow_total_witness :
    (step genesis (Op.create 1 "job-1" 2 ![10, 20, 30] 5)).escrow = some
      ({ recruiter := 1, freelancer := 2, job_id := "job-1",
         milestone_amounts := ![10, 20, 30],
         milestones_approved := fun _ => false, milestones_claimed := fun _ => false,
         bump := 255 }, 5 + (10 + 20 + 30)) ∧
    genesis.balances 1 =
      (step genesis (Op.create 1 "job-1" 2 ![10, 20, 30] 5)).balances 1 + 5 + (10 + 20 + 30) := by
  have h := create_job_escrow_total genesis
    (step genesis (Op.create 1 "job-1" 2 ![10, 20, 30] 5)) 1 "job-1" 2 ![10, 20, 30] 5 rfl
  exact ⟨h.1, h.2.1⟩

/-- C10: claim_milestone and cancel_job subtract the amount they move
directly from the account lamports without a prior balance check; when
the record actually holds at least that amount (milestone_amounts at
the index for claim_milestone, the sum of the unclaimed amounts for
cancel_job) the subtraction cannot underflow and the call succeeds,
and when a prior platform_withdraw has pushed the held lamports below
it, the call aborts with the untyped arithmetic failure, which is not
one of the declared error codes. -/
theorem lamports_subtraction_spec (st : Chain) (e : Escrow) (l : Nat)
    (hlive : st.escrow = some (e, l)) :
    (∀ i : Fin 3, e.milestones_approved i = true → e.milestones_claimed i = false →
      (e.milestone_amounts i ≤ l →
        (applyOp st (Op.claim e.freelancer i.val)).isOk = true) ∧
      (l < e.milestone_amounts i →
        applyOp st (Op.claim e.freelancer i.val) = .error .arith)) ∧
    ((∀ i : Fin 3, e.milestones_approved i = false) → unclaimedSum e < u64Limit →
      (unclaimedSum e ≤ l → (applyOp st (Op.cancel e.recruiter)).isOk = true) ∧
      (l < unclaimedSum e → applyOp st (Op.cancel e.recruiter) = .error .arith)) ∧
    (∀ c : ErrorCode, TxError.arith ≠ TxError.code c) := by
  have hclaim := claim_cases st e l e.freelancer hlive rfl
  have hcancel := cancel_cases st e l e.recruiter hlive rfl
  refine ⟨fun i ha hcl => ⟨fun hle => ?_, fun hlt => ((hclaim.1 i).2.2 ha hcl).1 hlt⟩,
    fun hnoapp hfit => ⟨fun hle => ?_, fun hlt => (hcancel.2 hnoapp hfit).1 hlt⟩,
    fun c hne => by cases hne⟩
  · rw [((hclaim.1 i).2.2 ha hcl).2 hle]
    rfl
  · obtain ⟨st1, h1, -⟩ := (hcancel.2 hnoapp hfit).2 hle
    rw [h1]
    rfl

theorem lamports_subtraction_spec_witness :
    (applyOp exSt (Op.claim exEscrow.freelancer 0)).isOk = true ∧
    applyOp drainedSt (Op.claim 2 0) = .error TxError.arith := by
  have h1 := lamports_subtraction_spec exSt exEscrow 65 rfl
  have h2 := lamports_subtraction_spec drainedSt
    { recruiter := 1, freelancer := 2, job_id := "job-1",
      milestone_amounts := ![10, 10, 10],
      milestones_approved := Function.update (fun _ => false) 0 true,
      milestones_claimed := fun _ => false, bump := 255 } 0 rfl
  exact ⟨((h1.1 0) rfl rfl).1 (by decide), ((h2.1 0) (by decide) rfl).2 (by decide)⟩

theorem create_ok_shape {st st1 : Chain} {r f rent : Nat} {j : String}
    {m : Fin 3 → Nat} (h : create_job_escrow st r j f m rent = .ok st1) :
    st.escrow = none ∧ j.length ≤ 50 ∧ (∀ i : Fin 3, 0 < m i) ∧
      m 0 + m 1 + m 2 < u64Limit ∧ rent + (m 0 + m 1 + m 2) ≤ st.balances r ∧
      st1 = { escrow := some
                ({ recruiter := r, freelancer := f, job_id := j, milestone_amounts := m,
                   milestones_approved := fun _ => false, milestones_claimed := fun _ => false,
                   bump := 255 }, rent + (m 0 + m 1 + m 2))
              balances := Function.update st.balances r
                (st.balances r - (rent + (m 0 + m 1 + m 2))) } := by
  rcases hst : st.escrow with - | p
  all_goals simp only [create_job_escrow, hst] at h
  case some => cases h
  split_ifs at h with h1 h2 h3 h4
  cases h
  exact ⟨rfl, h1, h2, h3, h4, rfl⟩

theorem approve_ok_shape {st st1 : Chain} {c j : Nat}
    (h : approve_milestone st c j = .ok st1) :
    ∃ (e : Escrow) (l : Nat) (hj : j < 3), st.escrow = some (e, l) ∧ c = e.recruiter ∧
      e.milestones_approved ⟨j, hj⟩ = false ∧
      st1 = { st with escrow := some ({ e with
        milestones_approved := Function.update e.milestones_approved ⟨j, hj⟩ true }, l) } := by
  rcases hst : st.escrow with - | ⟨e, l⟩
  all_goals simp only [approve_milestone, hst] at h
  case none => cases h
  split_ifs at h with h1 h2 h3
  cases h
  exact ⟨e, l, h2, rfl, h1, by simpa using h3, rfl⟩

theorem claim_ok_shape {st st1 : Chain} {c j : Nat}
    (h : claim_milestone st c j = .ok st1) :
    ∃ (e : Escrow) (l : Nat) (hj : j < 3), st.escrow = some (e, l) ∧ c = e.freelancer ∧
      e.milestones_approved ⟨j, hj⟩ = true ∧ e.milestones_claimed ⟨j, hj⟩ = false ∧
      e.milestone_amounts ⟨j, hj⟩ ≤ l ∧
      st1 = { escrow := some
                ({ e with milestones_claimed :=
                     Function.update e.milestones_claimed ⟨j, hj⟩ true },
                  l - e.milestone_amounts ⟨j, hj⟩)
              balances := Function.update st.balances e.freelancer
                (st.balances e.freelancer + e.milestone_amounts ⟨j, hj⟩) } := by
  rcases hst : st.escrow with - | ⟨e, l⟩
  all_goals simp only [claim_milestone, hst] at h
  case none => cases h
  split_ifs at h with h1 h2 h3 h4 h5
  cases h
  exact ⟨e, l, h2, rfl, h1, h3, by simpa using h4, h5, rfl⟩

theorem cancel_ok_shape {st st1 : Chain} {c : Nat}
    (h : cancel_job st c = .ok st1) : st1.escrow = none := by
  rcases hst : st.escrow with - | ⟨e, l⟩
  all_goals simp only [cancel_job, hst] at h
  case none => cases h
  split_ifs at h with h1 h2 h3 h4
  cases h
  rfl

theorem withdraw_ok_shape {st st1 : Chain} {c a : Nat}
    (h : platform_withdraw st c a = .ok st1) :
    ∃ e l, st.escrow = some (e, l) ∧ c = PLATFORM_AUTHORITY ∧ a ≤ l ∧
      st1 = { escrow := some (e, l - a)
              balances := Function.update st.balances PLATFORM_AUTHORITY
                (st.balances PLATFORM_AUTHORITY + a) } := by
  rcases hst : st.escrow with - | ⟨e, l⟩
  all_goals simp only [platform_withdraw, hst] at h
  case none => cases h
  split_ifs at h with h1 h2
  cases h
  exact ⟨e, l, rfl, h1, h2, rfl⟩

theorem close_ok_shape {st st1 : Chain} {c : Nat}
    (h : platform_emergency_close st c = .ok st1) : st1.escrow = none := by
  rcases hst : st.escrow with - | ⟨e, l⟩
  all_goals simp only [platform_emergency_close, hst] at h
  case none => cases h
  split_ifs at h with h1
  cases h
  rfl

theorem escrow_step_mono (st : Chain) (op : Op) (hop : op.isCreate = false)
    (e1 : Escrow) (l1 : Nat) (h1 : (step st op).escrow = some (e1, l1)) :
    ∃ e l, st.escrow = some (e, l) ∧
      (∀ i, e.milestones_approved i = true → e1.milestones_approved i = true) ∧
      (∀ i, e.milestones_claimed i = true → e1.milestones_claimed i = true) := by
  cases happ : applyOp st op with
  | error err =>
    rw [step_of_error happ] at h1
    exact ⟨e1, l1, h1, fun i hi => hi, fun i hi => hi⟩
  | ok st2 =>
    rw [step_of_ok happ] at h1
    cases op with
    | create r j f m rent => cases hop
    | approve c k =>
      obtain ⟨e, l, hk, hst, -, -, hshape⟩ := approve_ok_shape happ
      subst hshape
      simp only [Option.some.injEq, Prod.mk.injEq] at h1
      obtain ⟨he, -⟩ := h1
      subst he
      refine ⟨e, l, hst, fun i hi => ?_, fun i hi => hi⟩
      dsimp only
      rw [Function.update_apply]
      split <;> simp [hi]
    | claim c k =>
      obtain ⟨e, l, hk, hst, -, -, -, -, hshape⟩ := claim_ok_shape happ
      subst hshape
      simp only [Option.some.injEq, Prod.mk.injEq] at h1
      obtain ⟨he, -⟩ := h1
      subst he
      refine ⟨e, l, hst, fun i hi => hi, fun i hi => ?_⟩
      dsimp only
      rw [Function.update_apply]
      split <;> simp [hi]
    | cancel c =>
      have := cancel_ok_shape happ
      rw [this] at h1
      cases h1
    | withdraw c a =>
      obtain ⟨e, l, hst, -, -, hshape⟩ := withdraw_ok_shape happ
      subst hshape
      simp only [Option.some.injEq, Prod.mk.injEq] at h1
      obtain ⟨he, -⟩ := h1
      subst he
      exact ⟨e, l, hst, fun i hi => hi, fun i hi => hi⟩
    | close c =>
      have := close_ok_shape happ
      rw [this] at h1
      cases h1

/-- A claimed lock on milestone i: whenever the record is live, both
flags of milestone i are set. -/
def ClaimedLock (i : Fin 3) (st : Chain) : Prop :=
  ∀ e l, st.escrow = some (e, l) →
    e.milestones_approved i = true ∧ e.milestones_claimed i = true

/-- An approval lock on milestone i: whenever the record is live, the
approved flag of milestone i is set. -/
def ApprovedLock (i : Fin 3) (st : Chain) : Prop :=
  ∀ e l, st.escrow = some (e, l) → e.milestones_approved i = true

theorem claimedLock_step {i : Fin 3} {st : Chain} {op : Op}
    (hop : op.isCreate = false) (h : ClaimedLock i st) :
    ClaimedLock i (step st op) := by
  intro e1 l1 h1
  obtain ⟨e, l, hst, hap, hcl⟩ := escrow_step_mono st op hop e1 l1 h1
  obtain ⟨ha, hc⟩ := h e l hst
  exact ⟨hap i ha, hcl i hc⟩

theorem approvedLock_step {i : Fin 3} {st : Chain} {op : Op}
    (hop : op.isCreate = false) (h : ApprovedLock i st) :
    ApprovedLock i (step st op) := by
  intro e1 l1 h1
  obtain ⟨e, l, hst, hap, -⟩ := escrow_step_mono st op hop e1 l1 h1
  exact hap i (h e l hst)

theorem claimedLock_run {i : Fin 3} {st : Chain} {ops : List Op}
    (hnc : ∀ op ∈ ops, op.isCreate = false) (h : ClaimedLock i st) :
    ClaimedLock i (run st ops) := by
  induction ops generalizing st with
  | nil => exact h
  | cons op rest ih =>
    exact ih (fun o ho => hnc o (List.mem_cons_of_mem _ ho))
      (claimedLock_step (hnc op (List.mem_cons_self _ _)) h)

theorem approvedLock_run {i : Fin 3} {st : Chain} {ops : List Op}
    (hnc : ∀ op ∈ ops, op.isCreate = false) (h : ApprovedLock i st) :
    ApprovedLock i (run st ops) := by
  induction ops generalizing st with
  | nil => exact h
  | cons op rest ih =>
    exact ih (fun o ho => hnc o (List.mem_cons_of_mem _ ho))
      (approvedLock_step (hnc op (List.mem_cons_self _ _)) h)

/-- C1: within the lifetime of a record -- the record is still live at
the later call and no create_job_escrow re-created it in between -- a
successful claim_milestone(i) is never repeated: every later
claim_milestone with the same index, invoked by the stored freelancer,
fails with MilestoneAlreadyClaimed and leaves the committed state
unchanged, so claim_milestone(i) succeeds at most once. -/
theorem claim_milestone_at_most_once (st0 st1 : Chain) (c c1 j : Nat)
    (ops : List Op) (e1 : Escrow) (l1 : Nat)
    (hsucc : applyOp st0 (Op.claim c j) = .ok st1)
    (hnc : ∀ op ∈ ops, op.isCreate = false)
    (hlive : (run st1 ops).escrow = some (e1, l1))
    (hc : c1 = e1.freelancer) :
    applyOp (run st1 ops) (Op.claim c1 j) = .error (.code .MilestoneAlreadyClaimed) ∧
    step (run st1 ops) (Op.claim c1 j) = run st1 ops := by
  have hsucc1 : claim_milestone st0 c j = .ok st1 := hsucc
  obtain ⟨e, l, hj, hst, -, ha, -, -, hshape⟩ := claim_ok_shape hsucc1
  have hlock : ClaimedLock ⟨j, hj⟩ st1 := by
    intro e2 l2 h2
    subst hshape
    simp only [Option.some.injEq, Prod.mk.injEq] at h2
    obtain ⟨he, -⟩ := h2
    subst he
    refine ⟨ha, ?_⟩
    dsimp only
    rw [Function.update_same]
  obtain ⟨ha1, hcl1⟩ := claimedLock_run hnc hlock e1 l1 hlive
  have herr := ((claim_cases (run st1 ops) e1 l1 c1 hlive hc).1 ⟨j, hj⟩).2.1 ha1 hcl1
  exact ⟨herr, step_of_error herr⟩

theorem claim_milestone_at_most_once_witness :
    applyOp (run (step exSt (Op.claim 2 0)) []) (Op.claim 2 0) =
      .error (.code .MilestoneAlreadyClaimed) := by
  have h := claim_milestone_at_most_once exSt (step exSt (Op.claim 2 0)) 2 2 0 []
    { exEscrow with milestones_claimed := Function.update exEscrow.milestones_claimed 0 true }
    55 rfl (by simp) rfl rfl
  exact h.1

/-- C2: once an approve_milestone call has succeeded, cancellation is
locked out for the rest of the record lifetime: as long as the record
stays live and is not re-created, no operation resets the approved
flag, and every subsequent cancel_job by the stored recruiter fails
with CannotCancelAfterApproval and leaves the committed state
unchanged. -/
theorem cancel_locked_after_approval (st0 st1 : Chain) (c c1 j : Nat)
    (ops : List Op) (e1 : Escrow) (l1 : Nat)
    (hsucc : applyOp st0 (Op.approve c j) = .ok st1)
    (hnc : ∀ op ∈ ops, op.isCreate = false)
    (hlive : (run st1 ops).escrow = some (e1, l1))
    (hc : c1 = e1.recruiter) :
    applyOp (run st1 ops) (Op.cancel c1) = .error (.code .CannotCancelAfterApproval) ∧
    step (run st1 ops) (Op.cancel c1) = run st1 ops := by
  have hsucc1 : approve_milestone st0 c j = .ok st1 := hsucc
  obtain ⟨e, l, hj, hst, -, -, hshape⟩ := approve_ok_shape hsucc1
  have hlock : ApprovedLock ⟨j, hj⟩ st1 := by
    intro e2 l2 h2
    subst hshape
    simp only [Option.some.injEq, Prod.mk.injEq] at h2
    obtain ⟨he, -⟩ := h2
    subst he
    dsimp only
    rw [Function.update_same]
  have ha1 := approvedLock_run hnc hlock e1 l1 hlive
  have herr := (cancel_cases (run st1 ops) e1 l1 c1 hlive hc).1 ⟨⟨j, hj⟩, ha1⟩
  exact ⟨herr, step_of_error herr⟩

theorem cancel_locked_after_approval_witness :
    applyOp (run (step freshSt (Op.approve 1 0)) []) (Op.cancel 1) =
      .error (.code .CannotCancelAfterApproval) := by
  have h := cancel_locked_after_approval freshSt (step freshSt (Op.approve 1 0)) 1 1 0 []
    { freshEscrow with milestones_approved := Function.update freshEscrow.milestones_approved 0 true }
    65 rfl (by simp) rfl rfl
  exact h.1

/-- C3: invariant I1 -- a claimed milestone is an approved milestone,
for each of the three indices -- holds for the record produced by a
successful create_job_escrow, whose two flag arrays are initialised all
false, and is preserved by every operation: claim_milestone sets a
claimed flag only under the guard that the approved flag is already
true, and no operation ever clears an approved flag. -/
theorem inv1_holds :
    (∀ st st1 r j f m rent, applyOp st (Op.create r j f m rent) = .ok st1 → inv1 st1) ∧
    (∀ st op, inv1 st → inv1 (step st op)) := by
  constructor
  · intro st st1 r j f m rent h
    have h1 : create_job_escrow st r j f m rent = .ok st1 := h
    obtain ⟨-, -, -, -, -, hshape⟩ := create_ok_shape h1
    subst hshape
    intro e2 l2 i h2 hcl
    simp only [Option.some.injEq, Prod.mk.injEq] at h2
    obtain ⟨he, -⟩ := h2
    subst he
    cases hcl
  · intro st op hinv
    cases happ : applyOp st op with
    | error err => rw [step_of_error happ]; exact hinv
    | ok st2 =>
      rw [step_of_ok happ]
      intro e2 l2 i h2 hcl
      cases op with
      | create r j f m rent =>
        obtain ⟨-, -, -, -, -, hshape⟩ := create_ok_shape happ
        subst hshape
        simp only [Option.some.injEq, Prod.mk.injEq] at h2
        obtain ⟨he, -⟩ := h2
        subst he
        cases hcl
      | approve c k =>
        obtain ⟨e, l, hk, hst, -, -, hshape⟩ := approve_ok_shape happ
        subst hshape
        simp only [Option.some.injEq, Prod.mk.injEq] at h2
        obtain ⟨he, -⟩ := h2
        subst he
        dsimp only at hcl ⊢
        rw [Function.update_apply]
        have := hinv e l i hst hcl
        split <;> simp [this]
      | claim c k =>
        obtain ⟨e, l, hk, hst, -, hap, -, -, hshape⟩ := claim_ok_shape happ
        subst hshape
        simp only [Option.some.injEq, Prod.mk.injEq] at h2
        obtain ⟨he, -⟩ := h2
        subst he
        dsimp only at hcl ⊢
        rw [Function.update_apply] at hcl
        by_cases hik : i = ⟨k, hk⟩
        · subst hik
          exact hap
        · rw [if_neg hik] at hcl
          exact hinv e l i hst hcl
      | cancel c =>
        have := cancel_ok_shape happ
        rw [this] at h2
        cases h2
      | withdraw c a =>
        obtain ⟨e, l, hst, -, -, hshape⟩ := withdraw_ok_shape happ
        subst hshape
        simp only [Option.some.injEq, Prod.mk.injEq] at h2
        obtain ⟨he, -⟩ := h2
        subst he
        exact hinv e l i hst hcl
      | close c =>
        have := close_ok_shape happ
        rw [this] at h2
        cases h2

theorem inv1_holds_witness :
    inv1 (step genesis (Op.create 1 "job-1" 2 ![10, 20, 30] 5)) ∧
    inv1 (step freshSt (Op.approve 1 0)) := by
  have h1 := inv1_holds.1 genesis (step genesis (Op.create 1 "job-1" 2 ![10, 20, 30] 5))
    1 "job-1" 2 ![10, 20, 30] 5 rfl
  exact ⟨h1, inv1_holds.2 freshSt (Op.approve 1 0) h1⟩
